import Mathlib

/-!
Shallow embedding of `job_scrap_data_1.py` (LinkedIn recent-IT-jobs scraper).

Pure text classifiers are embedded as Lean functions over `String`
(whose logical model is a `List Char`); Python's `str.lower`, substring
`in`, `str.strip`, `str.split(',')[0]` and the anchored/unanchored
`re.sub` calls are modelled character-exactly for ASCII text.  Stateful
parts (the geocoding cache, the pagination loop, the two sink writers and
the lambda entry point) are embedded with explicit state passing, with
the network abstracted as oracles describing the outcome of each call.
-/

namespace JobScraper

/-! ### String primitives mirroring the Python operations used by the code -/

/-- Python `str.lower` (ASCII-faithful). -/
def strLower (s : String) : String := ⟨s.data.map Char.toLower⟩

/-- Does `pat` occur as a contiguous sublist of `s`?  This is Python's
substring test `pat in s`. -/
def subOccurs (pat : List Char) : List Char → Bool
  | [] => pat.isEmpty
  | c :: t => pat.isPrefixOf (c :: t) || subOccurs pat t

/-- Python `pat in hay` on strings. -/
def strContainsStr (hay pat : String) : Bool := subOccurs pat.data hay.data

/-- Does the character `x` occur in `l`?  Python `x in s` for a single char. -/
def hasChar (x : Char) : List Char → Bool
  | [] => false
  | a :: t => a == x || hasChar x t

/-- Python's `str.isspace` character class (CPython's table: `\t\n\v\f\r`,
`\x1c`-`\x1f`, space, NEL, NBSP, Ogham space, the U+2000 block, LS, PS,
NNBSP, MMSP, ideographic space) — the set `str.strip()` removes. -/
def pyIsSpace (c : Char) : Bool :=
  (Nat.ble 9 c.toNat && Nat.ble c.toNat 13) ||
  (Nat.ble 28 c.toNat && Nat.ble c.toNat 31) ||
  c.toNat == 32 || c.toNat == 0x85 || c.toNat == 0xa0 || c.toNat == 0x1680 ||
  (Nat.ble 0x2000 c.toNat && Nat.ble c.toNat 0x200a) ||
  c.toNat == 0x2028 || c.toNat == 0x2029 || c.toNat == 0x202f ||
  c.toNat == 0x205f || c.toNat == 0x3000

/-- Python `str.strip()`: drop `str.isspace` characters from both ends. -/
def trimChars (l : List Char) : List Char :=
  ((l.dropWhile pyIsSpace).reverse.dropWhile pyIsSpace).reverse

/-- `re.sub(pat + "$", "", s)` for a literal pattern `pat`.  Python's `$`
(without `re.MULTILINE`) matches at the end of the string OR just before a
newline that ends the string, so the substitution removes a final
occurrence of `pat`, or an occurrence followed by one string-final
newline (the newline survives).  The two cases are mutually exclusive for
the newline-free patterns the source uses, and the pattern can match at
most once per call. -/
def stripEnd (pat s : List Char) : List Char :=
  if (pat ++ ['\n']).isSuffixOf s then
    s.take (s.length - (pat.length + 1)) ++ ['\n']
  else if pat.isSuffixOf s then s.take (s.length - pat.length)
  else s

/-- Worker for `removeAllSub`: `skip` counts characters of a matched
occurrence still to be deleted. -/
def removeAllAux (pat : List Char) : Nat → List Char → List Char
  | _ + 1, [] => []
  | skip + 1, _ :: t => removeAllAux pat skip t
  | 0, [] => []
  | 0, c :: t =>
    if pat.isPrefixOf (c :: t) then removeAllAux pat (pat.length - 1) t
    else c :: removeAllAux pat 0 t

/-- `re.sub(pat, "", s)` for a literal (unanchored) pattern: delete every
non-overlapping occurrence, scanning left to right. -/
def removeAllSub (pat s : List Char) : List Char := removeAllAux pat 0 s

/-! ### Text classifiers (`clean_location`, `determine_experience_level`,
`is_remote`, `is_recent_job`) -/

/-- The five anchored suffix patterns stripped by `clean_location`, in
source order. -/
def suffixPatterns : List String :=
  [", England, United Kingdom", ", United Kingdom", ", UK",
   " Area, United Kingdom", " Area"]

/-- Core of `clean_location` over the character list of the input. -/
def cleanLocCore (s : List Char) : List Char :=
  let s1 := stripEnd ", England, United Kingdom".data s
  let s2 := stripEnd ", United Kingdom".data s1
  let s3 := stripEnd ", UK".data s2
  let s4 := stripEnd " Area, United Kingdom".data s3
  let s5 := stripEnd " Area".data s4
  let s6 := removeAllSub "Greater ".data s5
  if hasChar ',' s6 then trimChars (s6.takeWhile (fun a => a != ',')) else s6

/-- `clean_location` from the source: strip the five anchored regional
suffixes in order, delete every occurrence of `"Greater "` (the source's
`re.sub` is unanchored), then, if a comma remains, keep the trimmed text
before the first comma. -/
def clean_location (s : String) : String := ⟨cleanLocCore s.data⟩

def seniorKeywords : List String := ["senior", "lead", "principal", "manager", "head of"]

def entryKeywords : List String := ["junior", "entry", "graduate", "trainee"]

/-- `determine_experience_level` from the source. -/
def determine_experience_level (jobDescription : String) : String :=
  let text := strLower jobDescription
  if seniorKeywords.any (fun w => strContainsStr text w) then "Senior Level"
  else if entryKeywords.any (fun w => strContainsStr text w) then "Entry Level"
  else "Mid Level"

def remoteKeywords : List String := ["remote", "work from home", "wfh", "hybrid"]

/-- `is_remote` from the source (returns the work-type string). -/
def is_remote (jobDescription : String) : String :=
  let text := strLower jobDescription
  if remoteKeywords.any (fun w => strContainsStr text w) then
    if strContainsStr text "hybrid" then "Hybrid" else "Remote"
  else "On-site"

/-- `is_recent_job` from the source: lower-case, then test the six literal
substrings in the source's order. -/
def is_recent_job (postedDateText : String) : Bool :=
  let text := strLower postedDateText
  if strContainsStr text "hours ago" || strContainsStr text "hour ago" then true
  else if strContainsStr text "day ago" || strContainsStr text "1 day ago" then true
  else if strContainsStr text "2 days ago" then true
  else if strContainsStr text "3 days ago" then true
  else false

example : is_recent_job "2 days ago" = true := by decide
example : is_recent_job "4 days ago" = false := by decide
example : is_recent_job "" = false := by decide
example : is_recent_job "12 days ago" = true := by decide
example : clean_location "London, England, United Kingdom" = "London" := by decide
example : clean_location "Greater Manchester Area" = "Manchester" := by decide
example : clean_location "Bristol, UK" = "Bristol" := by decide
example : clean_location "Outer Greater London" = "Outer London" := by decide
example : clean_location "B Area Area" = "B Area" := by decide
example : clean_location "B Area" = "B" := by decide
example : clean_location "Bristol, UK\n" = "Bristol\n" := by decide
example : clean_location "B Area\n" = "B\n" := by decide
example : clean_location "York, North Yorkshire" = "York" := by decide
example : clean_location "  York , North Yorkshire" = "York" := by decide
example : determine_experience_level "Senior Graduate scheme" = "Senior Level" := by decide
example : is_remote "wfh role" = "Remote" := by decide
example : is_remote "hybrid, remote ok" = "Hybrid" := by decide

/-! ### Geocoding resolver (`get_coordinates`) with its in-memory cache

The network is abstracted as an oracle giving the outcome of the `n`-th
lookup the process attempts; `calls` counts lookup attempts, so "issues no
additional network call" is "`calls` is unchanged". -/

/-- Outcome of one attempted Nominatim lookup, as the source distinguishes
them: 200 with a parseable first result, 200 with an empty result array,
a non-200 status, or an exception anywhere inside the `try` block. -/
inductive LookupOutcome where
  | ok (lat lon : Int)
  | empty
  | badStatus
  | exn
deriving DecidableEq

/-- The scraper's mutable geocoding state: the `geocoding_cache` dict
(`none` value = the cached negative sentinel `(None, None)`) plus a count
of lookup attempts made so far. -/
structure GeoState where
  cache : List (String × Option (Int × Int))
  calls : Nat
deriving DecidableEq

/-- Python dict lookup `cache[location]` on the association list. -/
def findCache (loc : String) : List (String × Option (Int × Int)) → Option (Option (Int × Int))
  | [] => none
  | (k, v) :: t => if k = loc then some v else findCache loc t

/-- The cached value as the `(lat, lon)` pair of optionals the function returns. -/
def toPair : Option (Int × Int) → Option Int × Option Int
  | some (a, b) => (some a, some b)
  | none => (none, none)

/-- `get_coordinates` from the source: empty location short-circuits; a
cache hit returns the cached value with no lookup; on a miss the lookup
outcome is consulted — success and the two non-exception failures write
the cache, while the `except` branch returns `(None, None)` WITHOUT
writing the cache (the source's `except` handler only prints and returns). -/
def get_coordinates (oracle : Nat → LookupOutcome) (s : GeoState) (location : String) :
    (Option Int × Option Int) × GeoState :=
  if location = "" then ((none, none), s)
  else
    match findCache location s.cache with
    | some v => (toPair v, s)
    | none =>
      match oracle s.calls with
      | LookupOutcome.ok lat lon =>
          ((some lat, some lon), ⟨(location, some (lat, lon)) :: s.cache, s.calls + 1⟩)
      | LookupOutcome.empty =>
          ((none, none), ⟨(location, none) :: s.cache, s.calls + 1⟩)
      | LookupOutcome.badStatus =>
          ((none, none), ⟨(location, none) :: s.cache, s.calls + 1⟩)
      | LookupOutcome.exn =>
          ((none, none), ⟨s.cache, s.calls + 1⟩)

/-! ### Listing extraction (the per-card body of `scrape_linkedin_jobs`) -/

/-- One record appended to `all_jobs` (the CSV/DB coordinate columns are
added later by the sink writers on copies). -/
structure JobRecord where
  jobTitle : String
  company : String
  location : String
  experienceLevel : String
  workType : String
  category : String
  postedDate : String
  jobURL : String
  dateScraped : String
deriving DecidableEq

/-- The required fields of a listing card when extraction succeeds:
title, company, raw location, detail link, and the (possibly empty)
description text fetched from the detail page. -/
structure CardFields where
  title : String
  company : String
  rawLocation : String
  jobURL : String
  description : String
deriving DecidableEq

/-- One parsed listing card: the stripped posted-date text when the
`time.job-search-card__listdate` element exists, and `some` fields when
every required extraction step (and the detail fetch) succeeds —
`none` models the per-card `except` path. -/
structure Card where
  postedDate : Option String
  fields : Option CardFields
deriving DecidableEq

/-- Build the dict appended to `all_jobs` for a successfully extracted
card: cleaned location, derived experience level and work type, the
active search term as category, and `"Recently"` when the card had no
posted-date element. -/
def mkRecord (category now : String) (pd : Option String) (f : CardFields) : JobRecord :=
  { jobTitle := f.title
    company := f.company
    location := clean_location f.rawLocation
    experienceLevel := determine_experience_level f.description
    workType := is_remote f.description
    category := category
    postedDate := pd.getD "Recently"
    jobURL := f.jobURL
    dateScraped := now }

/-- The per-card loop body: a card whose posted-date text fails
`is_recent_job` is skipped before the `recent_jobs_found` flag is set;
otherwise the flag is set first, so a later extraction failure still
leaves the page marked as having recent jobs.  Returns (flag contribution,
record if one was appended). -/
def processCard (category now : String) (c : Card) : Bool × Option JobRecord :=
  match c.postedDate with
  | some t =>
    if is_recent_job t then (true, c.fields.map (mkRecord category now (some t)))
    else (false, none)
  | none => (true, c.fields.map (mkRecord category now none))

/-- The card loop over one results page: OR of the flag contributions and
the records appended in card order. -/
def processCards (category now : String) : List Card → Bool × List JobRecord
  | [] => (false, [])
  | c :: t =>
    let pr := processCard category now c
    let rest := processCards category now t
    (pr.1 || rest.1, pr.2.toList ++ rest.2)

/-! ### Pagination (`scrape_linkedin_jobs`) -/

/-- What fetching one search-results page produces: `fail` covers both a
non-200 status and an exception during the fetch (both `break`), `ok`
carries the parsed listing cards. -/
inductive Page where
  | fail
  | ok (cards : List Card)
deriving DecidableEq

/-- The `while page < max_pages_per_category` loop for one search term.
`fuel` is `maxPages - page`; `fetched` counts pages actually requested.
Returns the records accumulated for the term and the page-fetch count. -/
def scrapeLoop (pages : Nat → Page) (category now : String) :
    Nat → Nat → Nat → Nat → List JobRecord → List JobRecord × Nat
  | 0, _, _, fetched, acc => (acc, fetched)
  | fuel + 1, page, streak, fetched, acc =>
    match pages page with
    | Page.fail => (acc, fetched + 1)
    | Page.ok cards =>
      if cards.isEmpty then (acc, fetched + 1)
      else
        let pr := processCards category now cards
        let acc2 := acc ++ pr.2
        if pr.1 then scrapeLoop pages category now fuel (page + 1) 0 (fetched + 1) acc2
        else if 2 ≤ streak + 1 then (acc2, fetched + 1)
        else scrapeLoop pages category now fuel (page + 1) (streak + 1) (fetched + 1) acc2

/-- `max_pages_per_category = 1` in the source ("Reduced for Lambda
execution time constraints"). -/
def max_pages_per_category : Nat := 1

/-- Run the pagination loop for one term from its initial state. -/
def scrapeTerm (pages : Nat → Page) (maxPages : Nat) (category now : String) :
    List JobRecord × Nat :=
  scrapeLoop pages category now maxPages 0 0 0 []

/-- The fixed category list `it_jobs`. -/
def it_jobs : List String :=
  ["Backend Developer", "Frontend Developer", "Machine Learning Engineer"]

/-- `scrape_linkedin_jobs`: run every term, accumulating `all_jobs`. -/
def scrape_linkedin_jobs (pages : String → Nat → Page) (now : String) : List JobRecord :=
  it_jobs.foldl
    (fun acc term => acc ++ (scrapeTerm (pages term) max_pages_per_category term now).1) []

/-! ### Sink writers and the lambda entry point -/

/-- The coordinate-enrichment pass both writers run over the record list:
one `get_coordinates` call per record, threading the shared cache state. -/
def enrichPass (oracle : Nat → LookupOutcome) :
    List JobRecord → GeoState → List (JobRecord × (Option Int × Option Int)) × GeoState
  | [], s => ([], s)
  | j :: t, s =>
    let r := get_coordinates oracle s j.location
    let rest := enrichPass oracle t r.2
    ((j, r.1) :: rest.1, rest.2)

/-- `save_to_s3`: no-op on an empty record set; otherwise enrich every
record (mutating the shared cache) and return the `s3://` path on a
successful put, `None` when the put raises. -/
def save_to_s3 (oracle : Nat → LookupOutcome) (putOk : Bool) (bucket ts : String)
    (jobs : List JobRecord) (s : GeoState) : Option String × GeoState :=
  if jobs.isEmpty then (none, s)
  else
    let res := enrichPass oracle jobs s
    (if putOk then some ("s3://" ++ bucket ++ "/linkedin_recent_it_jobs_" ++ ts ++ ".csv")
     else none, res.2)

/-- `save_to_postgres`, reduced to its effect on the shared geocoding
state: no-op on an empty record set, otherwise an independent enrichment
pass over the same records (database failures roll back and are swallowed,
so they do not affect this state). -/
def save_to_postgres (oracle : Nat → LookupOutcome) (jobs : List JobRecord)
    (s : GeoState) : GeoState :=
  if jobs.isEmpty then s else (enrichPass oracle jobs s).2

/-- The external world of one invocation: page-fetch outcomes per term,
geocoding outcomes, whether the S3 put succeeds, and the environment's
bucket name and clock. -/
structure HandlerEnv where
  pages : String → Nat → Page
  geo : Nat → LookupOutcome
  putOk : Bool
  bucket : String
  now : String

/-- The JSON body of the handler response. -/
inductive Body where
  | success (totalJobs : Nat) (jobsByCategory : List (String × Nat))
      (outputFile : Option String) (timestamp : String)
  | failure (error : String)
deriving DecidableEq

/-- The `{statusCode, body}` envelope. -/
structure HandlerResponse where
  statusCode : Nat
  body : Body
deriving DecidableEq

/-- `categories[category] += 1` on an insertion-ordered dict. -/
def bumpCategory : List (String × Nat) → String → List (String × Nat)
  | [], c => [(c, 1)]
  | (k, n) :: t, c => if k = c then (k, n + 1) :: t else (k, n) :: bumpCategory t c

/-- The summary's `jobs_by_category` dict. -/
def categoryCounts (jobs : List JobRecord) : List (String × Nat) :=
  jobs.foldl (fun m j => bumpCategory m j.category) []

/-- Dict lookup on the summary. -/
def lookupCount (m : List (String × Nat)) (c : String) : Option Nat :=
  match m with
  | [] => none
  | (k, n) :: t => if k = c then some n else lookupCount t c

/-- `lambda_handler`: an uncaught exception (in the code only scraper
construction, i.e. a missing environment variable, can raise — every other
failure is caught internally) becomes a 500 with the error text; otherwise
scrape, write both sinks sequentially with the shared cache state, and
return 200 with the summary. -/
def lambda_handler (env : Except String HandlerEnv) (ts : String) : HandlerResponse :=
  match env with
  | Except.error e => ⟨500, Body.failure e⟩
  | Except.ok env =>
    let jobs := scrape_linkedin_jobs env.pages env.now
    let s3res := save_to_s3 env.geo env.putOk env.bucket env.now jobs ⟨[], 0⟩
    let _pg := save_to_postgres env.geo jobs s3res.2
    ⟨200, Body.success jobs.length (categoryCounts jobs) s3res.1 ts⟩

example :
    get_coordinates (fun _ => LookupOutcome.exn) ⟨[], 0⟩ "London" =
      ((none, none), ⟨[], 1⟩) := by decide
example :
    get_coordinates (fun _ => LookupOutcome.empty) ⟨[], 0⟩ "London" =
      ((none, none), ⟨[("London", none)], 1⟩) := by decide
example :
    scrapeTerm (fun _ => Page.ok [⟨some "5 days ago", some ⟨"D", "A", "L", "u", ""⟩⟩])
      max_pages_per_category "Backend Developer" "now" = ([], 1) := by decide
example :
    (processCards "Backend Developer" "now" [⟨none, some ⟨"D", "A", "L", "u", ""⟩⟩]).2 =
      [mkRecord "Backend Developer" "now" none ⟨"D", "A", "L", "u", ""⟩] := by decide
example :
    lambda_handler (Except.error "boom") "t" = ⟨500, Body.failure "boom"⟩ := by decide

/-! ### Helper lemmas about the string primitives -/

lemma hasChar_append (x : Char) (l m : List Char) :
    hasChar x (l ++ m) = (hasChar x l || hasChar x m) := by
  induction l with
  | nil => simp [hasChar]
  | cons a t ih => simp [hasChar, ih, Bool.or_assoc]

lemma hasChar_reverse (x : Char) (l : List Char) :
    hasChar x l.reverse = hasChar x l := by
  induction l with
  | nil => rfl
  | cons a t ih => simp [hasChar, List.reverse_cons, hasChar_append, ih, Bool.or_comm]

lemma hasChar_dropWhile (x : Char) (p : Char → Bool) (l : List Char)
    (h : hasChar x l = false) : hasChar x (l.dropWhile p) = false := by
  induction l with
  | nil => simpa using h
  | cons a t ih =>
    rw [hasChar] at h
    rcases Bool.or_eq_false_iff.mp h with ⟨h1, h2⟩
    by_cases hp : p a = true
    · rw [List.dropWhile_cons_of_pos hp]
      exact ih h2
    · rw [List.dropWhile_cons_of_neg hp, hasChar, h1, h2, Bool.or_self]

lemma hasChar_trimChars (x : Char) (l : List Char) (h : hasChar x l = false) :
    hasChar x (trimChars l) = false := by
  unfold trimChars
  rw [hasChar_reverse]
  apply hasChar_dropWhile
  rw [hasChar_reverse]
  exact hasChar_dropWhile _ _ _ h

lemma hasChar_takeWhile_ne (x : Char) (l : List Char) :
    hasChar x (l.takeWhile (fun a => a != x)) = false := by
  induction l with
  | nil => rfl
  | cons a t ih =>
    cases hax : (a == x) with
    | true =>
      have : (a != x) = false := by simp [bne, hax]
      rw [List.takeWhile_cons, this]
      rfl
    | false =>
      have : (a != x) = true := by simp [bne, hax]
      rw [List.takeWhile_cons, this]
      simpa [hasChar, hax] using ih

lemma stripEnd_noop (pat s : List Char)
    (hn : (pat ++ ['\n']).isSuffixOf s = false) (h : pat.isSuffixOf s = false) :
    stripEnd pat s = s := by
  simp [stripEnd, hn, h]

lemma removeAllAux_noop (pat s : List Char) (h : subOccurs pat s = false) :
    removeAllAux pat 0 s = s := by
  induction s with
  | nil => rfl
  | cons c t ih =>
    rw [subOccurs] at h
    rcases Bool.or_eq_false_iff.mp h with ⟨h1, h2⟩
    rw [removeAllAux, h1]
    simp [ih h2]

/-- Every value `clean_location` produces is comma-free: either the input
reached the final branch comma-free, or everything from the first comma
onward was cut. -/
lemma hasChar_comma_cleanLocCore (l : List Char) :
    hasChar ',' (cleanLocCore l) = false := by
  simp only [cleanLocCore]
  split
  · exact hasChar_trimChars _ _ (hasChar_takeWhile_ne ',' _)
  · next h => exact Bool.not_eq_true _ ▸ (by simpa using h)

/-- When none of the six removal steps can fire — no suffix pattern ends
the string, directly or just before a final newline — and no comma
remains, `cleanLocCore` is the identity. -/
lemma cleanLocCore_noop (y : List Char)
    (hsuf : ∀ p ∈ suffixPatterns,
      (p.data ++ ['\n']).isSuffixOf y = false ∧ p.data.isSuffixOf y = false)
    (hg : subOccurs "Greater ".data y = false)
    (hc : hasChar ',' y = false) :
    cleanLocCore y = y := by
  obtain ⟨a1, b1⟩ := hsuf ", England, United Kingdom" (by simp [suffixPatterns])
  obtain ⟨a2, b2⟩ := hsuf ", United Kingdom" (by simp [suffixPatterns])
  obtain ⟨a3, b3⟩ := hsuf ", UK" (by simp [suffixPatterns])
  obtain ⟨a4, b4⟩ := hsuf " Area, United Kingdom" (by simp [suffixPatterns])
  obtain ⟨a5, b5⟩ := hsuf " Area" (by simp [suffixPatterns])
  simp only [cleanLocCore, removeAllSub,
    stripEnd_noop _ _ a1 b1, stripEnd_noop _ _ a2 b2, stripEnd_noop _ _ a3 b3,
    stripEnd_noop _ _ a4 b4, stripEnd_noop _ _ a5 b5, removeAllAux_noop _ _ hg, hc]
  rfl

/-! ### C1: the recency predicate -/

/-- The six substrings the claim lists, in the source's testing order. -/
def recentPatterns : List String :=
  ["hours ago", "hour ago", "day ago", "1 day ago", "2 days ago", "3 days ago"]

/-- C1: `is_recent_job` lower-cases the posted-date text and returns true
exactly when the result contains one of the six listed substrings
("matches" read as the source's substring test); in particular
`"2 days ago"` is accepted while `"4 days ago"` and `""` are rejected. -/
theorem is_recent_job_spec (t : String) :
    is_recent_job t = recentPatterns.any (fun p => strContainsStr (strLower t) p) ∧
    is_recent_job "2 days ago" = true ∧
    is_recent_job "4 days ago" = false ∧
    is_recent_job "" = false := by
  refine ⟨?_, by decide, by decide, by decide⟩
  simp only [is_recent_job, recentPatterns, List.any_cons, List.any_nil, Bool.or_false]
  generalize strContainsStr (strLower t) "hours ago" = a
  generalize strContainsStr (strLower t) "hour ago" = b
  generalize strContainsStr (strLower t) "day ago" = c
  generalize strContainsStr (strLower t) "1 day ago" = d
  generalize strContainsStr (strLower t) "2 days ago" = e
  generalize strContainsStr (strLower t) "3 days ago" = g
  revert a b c d e g
  decide

/-! ### C7: the experience classifier -/

/-- C7: `determine_experience_level` returns `"Senior Level"` exactly when
the lower-cased text contains a seniority keyword, `"Entry Level"` exactly
when it contains an entry keyword but no seniority keyword, and
`"Mid Level"` exactly when it contains neither; so seniority wins when
both tiers' keywords are present, and keyword-free text is Mid. -/
theorem determine_experience_level_spec (d : String) :
    (determine_experience_level d = "Senior Level" ↔
      seniorKeywords.any (fun w => strContainsStr (strLower d) w) = true) ∧
    (determine_experience_level d = "Entry Level" ↔
      (seniorKeywords.any (fun w => strContainsStr (strLower d) w) = false ∧
       entryKeywords.any (fun w => strContainsStr (strLower d) w) = true)) ∧
    (determine_experience_level d = "Mid Level" ↔
      (seniorKeywords.any (fun w => strContainsStr (strLower d) w) = false ∧
       entryKeywords.any (fun w => strContainsStr (strLower d) w) = false)) ∧
    determine_experience_level "Senior Graduate scheme" = "Senior Level" ∧
    determine_experience_level "Backend engineer role" = "Mid Level" := by
  refine ⟨?_, ?_, ?_, by decide, by decide⟩ <;>
  · simp only [determine_experience_level]
    cases hs : seniorKeywords.any (fun w => strContainsStr (strLower d) w) <;>
      cases he : entryKeywords.any (fun w => strContainsStr (strLower d) w) <;>
        decide

section CleanLocationBridge

/- Unifying `(clean_location s).data` with `cleanLocCore s.data` must go
through the `String.mk` projection, not through unfolding `cleanLocCore`
(whose nested lets make speculative unfolding blow up), so the core is
made locally irreducible while the bridge lemmas are proved. -/
attribute [local irreducible] cleanLocCore

lemma clean_location_data (s : String) : (clean_location s).data = cleanLocCore s.data := by
  unfold clean_location
  rfl

lemma hasChar_comma_clean_location (s : String) :
    hasChar ',' (clean_location s).data = false := by
  rw [clean_location_data]
  exact hasChar_comma_cleanLocCore s.data

end CleanLocationBridge

/-! ### C6: the location cleaner (corrected: the `Greater ` removal is
unanchored, so EVERY occurrence is stripped, not only a leading one) -/

/-- Modelled from the spec's words for C6, as the comparison point for the
claim: identical to `clean_location` except that only a LEADING
`"Greater "` is stripped, which is what the claim asserts the code does. -/
def clean_location_leadingGreater (s : String) : String :=
  ⟨(let s1 := stripEnd ", England, United Kingdom".data s.data
    let s2 := stripEnd ", United Kingdom".data s1
    let s3 := stripEnd ", UK".data s2
    let s4 := stripEnd " Area, United Kingdom".data s3
    let s5 := stripEnd " Area".data s4
    let s6 := if "Greater ".data.isPrefixOf s5 then s5.drop "Greater ".data.length else s5
    if hasChar ',' s6 then trimChars (s6.takeWhile (fun a => a != ',')) else s6)⟩

/-- C6 counterexample: on `"Outer Greater London"` the code strips the
non-leading `"Greater "` (giving `"Outer London"`), while the claimed
leading-only strip would leave the string unchanged. -/
theorem clean_location_greater_cex :
    clean_location "Outer Greater London" = "Outer London" ∧
    clean_location_leadingGreater "Outer Greater London" = "Outer Greater London" ∧
    clean_location "Outer Greater London" ≠
      clean_location_leadingGreater "Outer Greater London" := by decide

/-- C6 amended: `clean_location` strips the fixed ordered suffix sequence
(each anchored pattern also fires just before a string-final newline, as
Python's `$` does), then EVERY occurrence of `"Greater "` (left to right,
non-overlapping), then keeps the trimmed text before the first comma if
one remains — so its output is always comma-free; the claim's three
examples hold, a non-leading and a repeated `"Greater "` are both
stripped, and a trailing newline survives the suffix strip. -/
theorem clean_location_spec_amended (s : String) :
    hasChar ',' (clean_location s).data = false ∧
    clean_location "London, England, United Kingdom" = "London" ∧
    clean_location "Greater Manchester Area" = "Manchester" ∧
    clean_location "Bristol, UK" = "Bristol" ∧
    clean_location "Outer Greater London" = "Outer London" ∧
    clean_location "Greater Greater London" = "London" ∧
    clean_location "Bristol, UK\n" = "Bristol\n" ∧
    clean_location "B Area Area\n" = "B Area\n" :=
  ⟨hasChar_comma_clean_location s, by decide, by decide, by decide, by decide, by decide,
   by decide, by decide⟩

/-! ### C8: idempotence of the cleaner (corrected: fails in general,
holds once no removable pattern survives in the cleaned value) -/

/-- C8 counterexample: `"B Area Area"` cleans to `"B Area"`, which cleans
again to `"B"` — the anchored `" Area"` strip fires once per application,
so `clean_location` is not idempotent. -/
theorem clean_location_idempotent_cex :
    clean_location "B Area Area" = "B Area" ∧
    clean_location (clean_location "B Area Area") = "B" ∧
    clean_location (clean_location "B Area Area") ≠ clean_location "B Area Area" := by decide

/-- C8 amended: `clean_location` is idempotent on every input whose
cleaned value no longer ends with one of the five regional suffixes —
directly or just before a final newline, the two positions where the
source's `$`-anchored substitutions fire — and no longer contains
`"Greater "` (the spec's own hedge "once suffixes are removed");
comma-freeness of cleaned values needs no hypothesis.  Without the
newline proviso idempotence still fails: `"B Area Area\n"` cleans to
`"B Area\n"` and then to `"B\n"`. -/
theorem clean_location_idempotent_amended (x : String)
    (hsuf : ∀ p ∈ suffixPatterns,
      (p.data ++ ['\n']).isSuffixOf (clean_location x).data = false ∧
      p.data.isSuffixOf (clean_location x).data = false)
    (hgr : subOccurs "Greater ".data (clean_location x).data = false) :
    clean_location (clean_location x) = clean_location x := by
  simp only [clean_location_data] at hsuf hgr
  have key := cleanLocCore_noop (cleanLocCore x.data) hsuf hgr
    (hasChar_comma_cleanLocCore x.data)
  have step : ∀ y : String, clean_location y = String.mk (cleanLocCore y.data) := fun _ => rfl
  rw [step (clean_location x), clean_location_data, key, step x]

/-- C8 witness: the hypotheses hold for
`"London, England, United Kingdom"`, whose cleaned value is `"London"`. -/
theorem clean_location_idempotent_amended_witness :
    clean_location (clean_location "London, England, United Kingdom") =
      clean_location "London, England, United Kingdom" :=
  clean_location_idempotent_amended "London, England, United Kingdom"
    (by decide) (by decide)

/-! ### Lemmas about per-card extraction -/

/-- A card whose posted-date text fails the recency test is skipped: no
flag, no record. -/
lemma processCard_stale (cat now : String) (c : Card) (u : String)
    (hpd : c.postedDate = some u) (hrec : is_recent_job u = false) :
    processCard cat now c = (false, none) := by
  simp [processCard, hpd, hrec]

/-- A page whose cards all carry stale posted-date texts contributes no
flag and no records. -/
lemma processCards_stale (cat now : String) (cs : List Card)
    (h : ∀ c ∈ cs, ∃ u, c.postedDate = some u ∧ is_recent_job u = false) :
    processCards cat now cs = (false, []) := by
  induction cs with
  | nil => rfl
  | cons c t ih =>
    obtain ⟨u, hpd, hrec⟩ := h c (List.mem_cons_self c t)
    simp [processCards, processCard_stale cat now c u hpd hrec,
      ih (fun d hd => h d (List.mem_cons_of_mem c hd))]

/-! ### C3: pagination on two stale pages (corrected: the shipped page cap
is 1, so the streak of 2 can never be reached; the claimed behaviour holds
for any cap of at least 2) -/

def cexStaleCard : Card :=
  ⟨some "5 days ago", some ⟨"Dev", "Acme", "Leeds", "jobs-example-1", ""⟩⟩

def cexStalePages : Nat → Page := fun _ => Page.ok [cexStaleCard]

/-- C3 counterexample: with the source's `max_pages_per_category = 1`, a
term whose available pages all contain one card with a stale posted date
stops after exactly 1 fetched page (the cap), not 2 — the
consecutive-stale streak never reaches 2. -/
theorem pagination_two_stale_pages_cex :
    max_pages_per_category = 1 ∧
    cexStalePages 0 = Page.ok [cexStaleCard] ∧
    cexStalePages 1 = Page.ok [cexStaleCard] ∧
    is_recent_job "5 days ago" = false ∧
    scrapeTerm cexStalePages max_pages_per_category "Backend Developer" "now" = ([], 1) ∧
    scrapeTerm cexStalePages max_pages_per_category "Backend Developer" "now" ≠ ([], 2) := by
  decide

/-- C3 amended: for any page cap of at least 2 (the shipped code uses 1),
a term whose first two pages each contain at least one card and only
stale posted dates stops after exactly 2 fetched pages with 0 records:
the first stale page raises the streak to 1, the second to 2, which
breaks the loop. -/
theorem pagination_two_stale_pages_amended
    (pages : Nat → Page) (maxPages : Nat) (term now : String) (cs0 cs1 : List Card)
    (hmax : 2 ≤ maxPages)
    (h0 : pages 0 = Page.ok cs0) (h0ne : cs0.isEmpty = false)
    (h0stale : ∀ c ∈ cs0, ∃ u, c.postedDate = some u ∧ is_recent_job u = false)
    (h1 : pages 1 = Page.ok cs1) (h1ne : cs1.isEmpty = false)
    (h1stale : ∀ c ∈ cs1, ∃ u, c.postedDate = some u ∧ is_recent_job u = false) :
    scrapeTerm pages maxPages term now = ([], 2) := by
  obtain ⟨k, rfl⟩ : ∃ k, maxPages = k + 1 + 1 := ⟨maxPages - 2, by omega⟩
  have hp0 := processCards_stale term now cs0 h0stale
  have hp1 := processCards_stale term now cs1 h1stale
  simp [scrapeTerm, scrapeLoop, h0, h1, hp0, hp1, h0ne, h1ne]

/-- C3 witness: a concrete cap of 2 and two concrete stale pages. -/
theorem pagination_two_stale_pages_amended_witness :
    scrapeTerm cexStalePages 2 "Backend Developer" "now" = ([], 2) :=
  pagination_two_stale_pages_amended cexStalePages 2 "Backend Developer" "now"
    [cexStaleCard] [cexStaleCard] (by decide) rfl (by decide)
    (by decide) rfl (by decide) (by decide)

/-! ### C4: emitted records and the recency filter (corrected: a card with
no posted-date element bypasses the recency predicate and is still
emitted, carrying the sentinel text `"Recently"`) -/

def cexCardFields : CardFields := ⟨"Dev", "Acme", "London", "jobs-example-2", ""⟩

def cexDatelessCard : Card := ⟨none, some cexCardFields⟩

/-- C4 counterexample: a card with no posted-date element produces an
emitted record even though it had no posted-date text that `is_recent_job`
accepted — its record carries the sentinel `"Recently"`, which
`is_recent_job` rejects. -/
theorem emitted_record_recency_cex :
    cexDatelessCard.postedDate = none ∧
    (processCards "Backend Developer" "2025-01-01 00:00:00" [cexDatelessCard]).2 =
      [mkRecord "Backend Developer" "2025-01-01 00:00:00" none cexCardFields] ∧
    (mkRecord "Backend Developer" "2025-01-01 00:00:00" none cexCardFields).postedDate =
      "Recently" ∧
    is_recent_job
      (mkRecord "Backend Developer" "2025-01-01 00:00:00" none cexCardFields).postedDate =
      false := by
  decide

/-- C4 amended: every emitted record comes from a card that either had a
posted-date text `is_recent_job` accepted, or had no posted-date element
at all (no record ever comes from a card whose posted-date text was
rejected). -/
theorem emitted_record_recency_amended (cat now : String) (cards : List Card) (r : JobRecord)
    (h : r ∈ (processCards cat now cards).2) :
    ∃ c ∈ cards, (processCard cat now c).2 = some r ∧
      (c.postedDate = none ∨ ∃ u, c.postedDate = some u ∧ is_recent_job u = true) := by
  induction cards with
  | nil => simp [processCards] at h
  | cons c t ih =>
    simp only [processCards] at h
    rcases List.mem_append.mp h with h1 | h2
    · have ho : (processCard cat now c).2 = some r := by
        cases hcase : (processCard cat now c).2 with
        | none => rw [hcase] at h1; simp at h1
        | some w =>
          rw [hcase] at h1
          simp at h1
          simp [hcase, h1]
      cases hpd : c.postedDate with
      | none => exact ⟨c, List.mem_cons_self c t, ho, Or.inl hpd⟩
      | some u =>
        cases hrec : is_recent_job u with
        | false =>
          rw [processCard_stale cat now c u hpd hrec] at ho
          cases ho
        | true => exact ⟨c, List.mem_cons_self c t, ho, Or.inr ⟨u, hpd, hrec⟩⟩
    · obtain ⟨d, hd, hrest⟩ := ih h2
      exact ⟨d, List.mem_cons_of_mem c hd, hrest⟩

def witRecentCard : Card := ⟨some "2 days ago", some cexCardFields⟩

/-- C4 witness: a concrete recent card and the record it emits. -/
theorem emitted_record_recency_amended_witness :
    ∃ c ∈ [witRecentCard],
      (processCard "Backend Developer" "now" c).2 =
        some (mkRecord "Backend Developer" "now" (some "2 days ago") cexCardFields) ∧
      (c.postedDate = none ∨ ∃ u, c.postedDate = some u ∧ is_recent_job u = true) :=
  emitted_record_recency_amended "Backend Developer" "now" [witRecentCard]
    (mkRecord "Backend Developer" "now" (some "2 days ago") cexCardFields) (by decide)

/-! ### C9: what the recent-jobs flag tracks -/

/-- Whether a card reaches the `recent_jobs_found = True` line: its
posted-date element is absent, or its text passes `is_recent_job`. -/
def cardDatePass (c : Card) : Bool :=
  match c.postedDate with
  | none => true
  | some u => is_recent_job u

/-- C9: the page flag that resets the consecutive-stale streak is exactly
"some card passed the recency check or had no posted-date element" — set
even when that card then fails field extraction and yields no record —
and a card with no posted-date element bypasses `is_recent_job` and is
emitted with the sentinel text `"Recently"`. -/
theorem stale_streak_tracks_recency_flag (cat now : String) (cards : List Card) (c : Card) :
    (processCards cat now cards).1 = cards.any cardDatePass ∧
    (c.postedDate = none → processCard cat now c = (true, c.fields.map (mkRecord cat now none))) ∧
    (c.postedDate = none → c.fields = none → processCard cat now c = (true, none)) ∧
    (∀ f, c.postedDate = none → c.fields = some f →
      (processCard cat now c).2 = some (mkRecord cat now none f) ∧
      (mkRecord cat now none f).postedDate = "Recently") := by
  refine ⟨?_, ?_, ?_, ?_⟩
  · induction cards with
    | nil => rfl
    | cons d t ih =>
      have hd : (processCard cat now d).1 = cardDatePass d := by
        cases hpd : d.postedDate with
        | none => simp [processCard, cardDatePass, hpd]
        | some u => cases hu : is_recent_job u <;> simp [processCard, cardDatePass, hpd, hu]
      simp [processCards, List.any_cons, hd, ih]
  · intro hpd
    simp [processCard, hpd]
  · intro hpd hf
    simp [processCard, hpd, hf]
  · intro f hpd hf
    exact ⟨by simp [processCard, hpd, hf], rfl⟩

/-- C9 witness: a dateless card with failing extraction still sets the
flag; a dateless card with fields is emitted as `"Recently"`. -/
theorem stale_streak_tracks_recency_flag_witness :
    (processCards "Backend Developer" "now" [(⟨none, none⟩ : Card)]).1 =
      ([(⟨none, none⟩ : Card)]).any cardDatePass ∧
    processCard "Backend Developer" "now" (⟨none, none⟩ : Card) = (true, none) ∧
    (processCard "Backend Developer" "now" (⟨none, some cexCardFields⟩ : Card)).2 =
      some (mkRecord "Backend Developer" "now" none cexCardFields) ∧
    (mkRecord "Backend Developer" "now" none cexCardFields).postedDate = "Recently" := by
  have h1 := stale_streak_tracks_recency_flag "Backend Developer" "now"
    [(⟨none, none⟩ : Card)] ⟨none, none⟩
  have h2 := stale_streak_tracks_recency_flag "Backend Developer" "now"
    [(⟨none, none⟩ : Card)] ⟨none, some cexCardFields⟩
  exact ⟨h1.1, h1.2.2.1 rfl rfl, (h2.2.2.2 cexCardFields rfl rfl).1, (h2.2.2.2 cexCardFields rfl rfl).2⟩

/-! ### Lemmas about the geocoding cache -/

/-- A cached location is answered from the cache with no state change at
all (in particular no lookup attempt). -/
lemma get_coordinates_hit (oracle : Nat → LookupOutcome) (s : GeoState) (loc : String)
    (v : Option (Int × Int)) (hne : ¬ loc = "") (h : findCache loc s.cache = some v) :
    get_coordinates oracle s loc = (toPair v, s) := by
  simp [get_coordinates, hne, h]

/-- An empty location is answered immediately with no state change. -/
lemma get_coordinates_empty_loc (oracle : Nat → LookupOutcome) (s : GeoState) :
    get_coordinates oracle s "" = ((none, none), s) := by
  simp [get_coordinates]

/-- One `get_coordinates` call never removes a cache entry. -/
lemma findCache_preserved (oracle : Nat → LookupOutcome) (s : GeoState) (l loc : String)
    (v : Option (Int × Int)) (h : findCache loc s.cache = some v) :
    findCache loc (get_coordinates oracle s l).2.cache = some v := by
  by_cases hl : l = ""
  · simp [get_coordinates, hl, h]
  · cases hc : findCache l s.cache with
    | some w => simp [get_coordinates, hl, hc, h]
    | none =>
      have hne : ¬ l = loc := by
        intro e
        rw [e, h] at hc
        cases hc
      cases ho : oracle s.calls <;>
        simp [get_coordinates, hl, hc, ho, findCache, hne, h]

/-- An enrichment pass never removes a cache entry. -/
lemma findCache_enrichPass (oracle : Nat → LookupOutcome) (jobs : List JobRecord)
    (s : GeoState) (loc : String) (v : Option (Int × Int))
    (h : findCache loc s.cache = some v) :
    findCache loc (enrichPass oracle jobs s).2.cache = some v := by
  induction jobs generalizing s with
  | nil => simpa [enrichPass] using h
  | cons j t ih =>
    simp only [enrichPass]
    exact ih _ (findCache_preserved oracle s j.location loc v h)

/-- A call on an empty or cached location leaves the state untouched. -/
lemma get_coordinates_cached_state (oracle : Nat → LookupOutcome) (s : GeoState) (loc : String)
    (h : loc = "" ∨ (findCache loc s.cache).isSome = true) :
    (get_coordinates oracle s loc).2 = s := by
  rcases h with h | h
  · simp [get_coordinates, h]
  · rcases Option.isSome_iff_exists.mp h with ⟨v, hv⟩
    by_cases hl : loc = ""
    · simp [get_coordinates, hl]
    · simp [get_coordinates, hl, hv]

/-- An enrichment pass over records whose locations are all empty or
already cached performs no lookup and leaves the state untouched. -/
lemma enrichPass_all_cached (oracle : Nat → LookupOutcome) (jobs : List JobRecord)
    (s : GeoState)
    (h : ∀ j ∈ jobs, j.location = "" ∨ (findCache j.location s.cache).isSome = true) :
    (enrichPass oracle jobs s).2 = s := by
  induction jobs with
  | nil => rfl
  | cons j t ih =>
    have hj := get_coordinates_cached_state oracle s j.location (h j (List.mem_cons_self j t))
    simp only [enrichPass, hj]
    exact ih (fun d hd => h d (List.mem_cons_of_mem j hd))

/-! ### C2: failure handling in `get_coordinates` (corrected: zero results
and non-200 are cached as the negative sentinel, but the exception path
returns the sentinel WITHOUT caching it, so a second call after an
exception performs another lookup) -/

def cexExnOracle : Nat → LookupOutcome := fun _ => LookupOutcome.exn

/-- C2 counterexample: with every lookup raising, the first call on
`"London"` returns `(None, None)` but leaves the cache empty, and a second
identical call attempts another lookup (the attempt counter rises from 1
to 2) instead of being served from the cache. -/
theorem get_coordinates_exn_uncached_cex :
    get_coordinates cexExnOracle ⟨[], 0⟩ "London" = ((none, none), ⟨[], 1⟩) ∧
    get_coordinates cexExnOracle ⟨[], 1⟩ "London" = ((none, none), ⟨[], 2⟩) := by
  decide

/-- C2 amended: `get_coordinates` never raises (it is total and returns
the sentinel on every failure); on a cache miss answered with zero results
or a non-200 status it stores and returns the negative sentinel, and the
second call with the same location is served from the cache with no
further lookup; on an exception it returns the sentinel WITHOUT storing
it, so the location stays uncached. -/
theorem get_coordinates_failure_amended (oracle : Nat → LookupOutcome) (s : GeoState)
    (loc : String) (hne : ¬ loc = "") (hmiss : findCache loc s.cache = none) :
    ((oracle s.calls = LookupOutcome.empty ∨ oracle s.calls = LookupOutcome.badStatus) →
      get_coordinates oracle s loc = ((none, none), ⟨(loc, none) :: s.cache, s.calls + 1⟩) ∧
      get_coordinates oracle ⟨(loc, none) :: s.cache, s.calls + 1⟩ loc =
        ((none, none), ⟨(loc, none) :: s.cache, s.calls + 1⟩)) ∧
    (oracle s.calls = LookupOutcome.exn →
      get_coordinates oracle s loc = ((none, none), ⟨s.cache, s.calls + 1⟩) ∧
      findCache loc ((get_coordinates oracle s loc).2).cache = none) := by
  constructor
  · intro h
    constructor
    · rcases h with h | h <;> simp [get_coordinates, hne, hmiss, h]
    · have : findCache loc ((loc, none) :: s.cache) = some none := by
        simp [findCache]
      simp [get_coordinates_hit oracle ⟨(loc, none) :: s.cache, s.calls + 1⟩ loc none hne this,
        toPair]
  · intro h
    have he : get_coordinates oracle s loc = ((none, none), ⟨s.cache, s.calls + 1⟩) := by
      simp [get_coordinates, hne, hmiss, h]
    exact ⟨he, by rw [he]; exact hmiss⟩

/-- C2 witness: a concrete empty-result lookup is cached and replayed from
the cache; a concrete exception leaves the cache empty. -/
theorem get_coordinates_failure_amended_witness :
    get_coordinates (fun _ => LookupOutcome.empty) ⟨[], 0⟩ "London" =
      ((none, none), ⟨[("London", none)], 1⟩) ∧
    get_coordinates (fun _ => LookupOutcome.empty) ⟨[("London", none)], 1⟩ "London" =
      ((none, none), ⟨[("London", none)], 1⟩) ∧
    get_coordinates (fun _ => LookupOutcome.exn) ⟨[], 0⟩ "Leeds" =
      ((none, none), ⟨[], 1⟩) := by
  have h1 := get_coordinates_failure_amended (fun _ => LookupOutcome.empty) ⟨[], 0⟩ "London"
    (by decide) rfl
  have h2 := get_coordinates_failure_amended (fun _ => LookupOutcome.exn) ⟨[], 0⟩ "Leeds"
    (by decide) rfl
  exact ⟨(h1.1 (Or.inl rfl)).1, (h1.1 (Or.inl rfl)).2, (h2.2 rfl).1⟩

/-! ### C10: the per-run cache is shared by both sink writers -/

/-- C10: the cache the S3 writer's enrichment pass fills is the very state
the Postgres writer's pass then reads: any location cached (as coordinates
or as the negative sentinel) after `save_to_s3` is (i) answered from the
cache with no lookup and no state change, (ii) still cached after the
whole `save_to_postgres` pass, and (iii) when every record's location is
empty or cached after the S3 pass, the Postgres pass performs no lookup
at all and leaves the state identical. -/
theorem geocoding_cache_shared (oracle : Nat → LookupOutcome) (putOk : Bool)
    (bucket ts : String) (jobs jobs2 : List JobRecord) (s : GeoState)
    (loc : String) (v : Option (Int × Int)) (hne : ¬ loc = "")
    (h : findCache loc (save_to_s3 oracle putOk bucket ts jobs s).2.cache = some v) :
    get_coordinates oracle (save_to_s3 oracle putOk bucket ts jobs s).2 loc =
      (toPair v, (save_to_s3 oracle putOk bucket ts jobs s).2) ∧
    findCache loc
      (save_to_postgres oracle jobs2 (save_to_s3 oracle putOk bucket ts jobs s).2).cache =
      some v ∧
    ((∀ j ∈ jobs2, j.location = "" ∨
        (findCache j.location (save_to_s3 oracle putOk bucket ts jobs s).2.cache).isSome = true) →
      save_to_postgres oracle jobs2 (save_to_s3 oracle putOk bucket ts jobs s).2 =
        (save_to_s3 oracle putOk bucket ts jobs s).2) := by
  refine ⟨get_coordinates_hit oracle _ loc v hne h, ?_, ?_⟩
  · by_cases hj : jobs2.isEmpty
    · simpa [save_to_postgres, hj] using h
    · simp only [save_to_postgres, hj, if_false]
      exact findCache_enrichPass oracle jobs2 _ loc v h
  · intro hall
    by_cases hj : jobs2.isEmpty
    · simp [save_to_postgres, hj]
    · simp only [save_to_postgres, hj, if_false]
      exact enrichPass_all_cached oracle jobs2 _ hall

def witOracle : Nat → LookupOutcome := fun _ => LookupOutcome.ok 51 0

def witJob : JobRecord :=
  ⟨"Dev", "Acme", "London", "Mid Level", "On-site", "Backend Developer",
   "Recently", "jobs-example-3", "2025-01-01 00:00:00"⟩

/-- C10 witness: after the S3 pass caches `"London"`, the Postgres pass
over the same single record reuses the cached value and changes nothing. -/
theorem geocoding_cache_shared_witness :
    get_coordinates witOracle ⟨[("London", some (51, 0))], 1⟩ "London" =
      ((some 51, some 0), ⟨[("London", some (51, 0))], 1⟩) ∧
    save_to_postgres witOracle [witJob] ⟨[("London", some (51, 0))], 1⟩ =
      ⟨[("London", some (51, 0))], 1⟩ := by
  have hs3 : (save_to_s3 witOracle true "b" "ts" [witJob] ⟨[], 0⟩).2 =
      ⟨[("London", some (51, 0))], 1⟩ := by decide
  have h := geocoding_cache_shared witOracle true "b" "ts" [witJob] [witJob] ⟨[], 0⟩
    "London" (some (51, 0)) (by decide) (by rw [hs3]; decide)
  rw [hs3] at h
  exact ⟨h.1, h.2.2 (by decide)⟩

/-! ### Lemmas about the summary dictionary -/

lemma lookupCount_bump (m : List (String × Nat)) (c c' : String) :
    lookupCount (bumpCategory m c) c' =
      if c' = c then some ((lookupCount m c').getD 0 + 1) else lookupCount m c' := by
  induction m with
  | nil =>
    by_cases h : c' = c
    · subst h
      simp [bumpCategory, lookupCount]
    · have h2 : ¬ c = c' := fun e => h e.symm
      simp [bumpCategory, lookupCount, h, h2]
  | cons kv t ih =>
    obtain ⟨k, n⟩ := kv
    by_cases hk : k = c
    · subst hk
      by_cases h : c' = k
      · subst h
        simp [bumpCategory, lookupCount]
      · have h2 : ¬ k = c' := fun e => h e.symm
        simp [bumpCategory, lookupCount, h, h2]
    · by_cases h : k = c'
      · subst h
        simp [bumpCategory, lookupCount, hk]
      · simp [bumpCategory, lookupCount, hk, h, ih]

lemma lookupCount_foldl (jobs : List JobRecord) (c : String) (m : List (String × Nat)) :
    lookupCount (jobs.foldl (fun m j => bumpCategory m j.category) m) c =
      match lookupCount m c with
      | some k => some (k + (jobs.filter (fun j => j.category == c)).length)
      | none =>
        if (jobs.filter (fun j => j.category == c)).length = 0 then none
        else some ((jobs.filter (fun j => j.category == c)).length) := by
  induction jobs generalizing m with
  | nil => cases h : lookupCount m c <;> simp [h]
  | cons j t ih =>
    simp only [List.foldl_cons]
    rw [ih, lookupCount_bump]
    by_cases hc : c = j.category
    · have hb : (j.category == c) = true := beq_iff_eq.mpr hc.symm
      cases hm : lookupCount m c with
      | none =>
        simp only [hm, if_pos hc, List.filter_cons, hb, if_true, List.length_cons,
          Option.getD_none]
        rw [if_neg (Nat.succ_ne_zero _)]
        have he : 0 + 1 + (t.filter (fun j => j.category == c)).length =
            (t.filter (fun j => j.category == c)).length + 1 := by omega
        rw [he]
      | some k =>
        simp only [hm, if_pos hc, List.filter_cons, hb, if_true, List.length_cons,
          Option.getD_some]
        have : k + 1 + (t.filter (fun j => j.category == c)).length =
            k + ((t.filter (fun j => j.category == c)).length + 1) := by omega
        rw [this]
    · have hb : (j.category == c) = false := by
        cases hx : j.category == c
        · rfl
        · exact absurd (beq_iff_eq.mp hx).symm hc
      simp only [if_neg hc, List.filter_cons, hb]
      rfl

/-- The summary's per-category count is exactly the number of accumulated
records whose `Category` is that term (absent when zero). -/
lemma lookupCount_categoryCounts (jobs : List JobRecord) (c : String) :
    lookupCount (categoryCounts jobs) c =
      if (jobs.filter (fun j => j.category == c)).length = 0 then none
      else some ((jobs.filter (fun j => j.category == c)).length) := by
  have h := lookupCount_foldl jobs c []
  simpa [categoryCounts, lookupCount] using h

/-! ### Provenance of a record's category -/

lemma processCard_category (cat now : String) (c : Card) (r : JobRecord)
    (h : (processCard cat now c).2 = some r) : r.category = cat := by
  have hr : ∃ pd f, r = mkRecord cat now pd f := by
    cases hpd : c.postedDate with
    | none =>
      cases hf : c.fields with
      | none => simp [processCard, hpd, hf] at h
      | some f =>
        simp [processCard, hpd, hf] at h
        exact ⟨none, f, h.symm⟩
    | some u =>
      cases hu : is_recent_job u with
      | false => simp [processCard, hpd, hu] at h
      | true =>
        cases hf : c.fields with
        | none => simp [processCard, hpd, hu, hf] at h
        | some f =>
          simp [processCard, hpd, hu, hf] at h
          exact ⟨some u, f, h.symm⟩
  obtain ⟨pd, f, rfl⟩ := hr
  rfl

lemma processCards_category (cat now : String) (cs : List Card) (r : JobRecord)
    (h : r ∈ (processCards cat now cs).2) : r.category = cat := by
  induction cs with
  | nil => simp [processCards] at h
  | cons c t ih =>
    simp only [processCards] at h
    rcases List.mem_append.mp h with h1 | h2
    · cases hcase : (processCard cat now c).2 with
      | none =>
        rw [hcase] at h1
        simp at h1
      | some w =>
        rw [hcase] at h1
        simp at h1
        rw [h1]
        exact processCard_category cat now c w hcase
    · exact ih h2

lemma scrapeLoop_category (pages : Nat → Page) (cat now : String)
    (fuel : Nat) (page streak fetched : Nat) (acc : List JobRecord)
    (hacc : ∀ r ∈ acc, r.category = cat) :
    ∀ r ∈ (scrapeLoop pages cat now fuel page streak fetched acc).1, r.category = cat := by
  induction fuel generalizing page streak fetched acc with
  | zero => simpa [scrapeLoop] using hacc
  | succ n ih =>
    intro r hr
    rw [scrapeLoop] at hr
    cases hpg : pages page with
    | fail =>
      rw [hpg] at hr
      exact hacc r hr
    | ok cards =>
      rw [hpg] at hr
      have hacc2 : ∀ r ∈ acc ++ (processCards cat now cards).2, r.category = cat := by
        intro r hr2
        rcases List.mem_append.mp hr2 with h | h
        · exact hacc r h
        · exact processCards_category cat now cards r h
      cases hce : cards.isEmpty with
      | true =>
        simp only [hce, if_true] at hr
        exact hacc r hr
      | false =>
        simp only [hce, Bool.false_eq_true, if_false] at hr
        split at hr
        · exact ih (page + 1) 0 (fetched + 1) _ hacc2 r hr
        · split at hr
          · exact hacc2 r hr
          · exact ih (page + 1) (streak + 1) (fetched + 1) _ hacc2 r hr

/-! ### C5: the lambda handler's response envelope -/

/-- C5: when construction raises (missing environment variable — the only
uncaught-exception site), the handler returns status 500 with the error
text; otherwise it returns status 200 whose body carries `total_jobs` =
number of accumulated records, `jobs_by_category` mapping each category to
the number of records whose `Category` equals it (every record produced
under a term carries that term as its category), the S3 output path and
the timestamp. -/
theorem lambda_handler_spec (env : HandlerEnv) (e ts : String) :
    lambda_handler (Except.error e) ts = ⟨500, Body.failure e⟩ ∧
    lambda_handler (Except.ok env) ts =
      ⟨200, Body.success (scrape_linkedin_jobs env.pages env.now).length
        (categoryCounts (scrape_linkedin_jobs env.pages env.now))
        (save_to_s3 env.geo env.putOk env.bucket env.now
          (scrape_linkedin_jobs env.pages env.now) ⟨[], 0⟩).1 ts⟩ ∧
    (∀ jobs c, lookupCount (categoryCounts jobs) c =
      if (jobs.filter (fun j => j.category == c)).length = 0 then none
      else some ((jobs.filter (fun j => j.category == c)).length)) ∧
    (∀ pages maxPages term now r,
      r ∈ (scrapeTerm pages maxPages term now).1 → r.category = term) := by
  refine ⟨rfl, rfl, lookupCount_categoryCounts, ?_⟩
  intro pages maxPages term now r hr
  exact scrapeLoop_category pages term now maxPages 0 0 0 [] (by simp) r hr

def demoCard1 : Card :=
  ⟨some "2 days ago", some ⟨"Dev One", "Acme", "London", "jobs-example-u1", ""⟩⟩

def demoCard2 : Card :=
  ⟨some "1 day ago", some ⟨"Dev Two", "Bolt", "Leeds", "jobs-example-u2", "senior"⟩⟩

def demoPages : String → Nat → Page := fun _ _ => Page.ok [demoCard1, demoCard2]

def demoEnv : HandlerEnv :=
  ⟨demoPages, fun _ => LookupOutcome.ok 51 0, true, "bucket", "2025-01-01 00:00:00"⟩

def demoRecord1 : JobRecord :=
  mkRecord "Backend Developer" "2025-01-01 00:00:00" (some "2 days ago")
    ⟨"Dev One", "Acme", "London", "jobs-example-u1", ""⟩

/-- C5 witness: the spec's end-to-end example — 3 terms, each page
yielding 2 recent listings, gives `total_jobs = 6`, each category counted
2 and status 200; and the error case gives 500 with the message. -/
theorem lambda_handler_spec_witness :
    lambda_handler (Except.error "boom") "t0" = ⟨500, Body.failure "boom"⟩ ∧
    (scrape_linkedin_jobs demoEnv.pages demoEnv.now).length = 6 ∧
    lookupCount (categoryCounts (scrape_linkedin_jobs demoEnv.pages demoEnv.now))
      "Backend Developer" = some 2 ∧
    lookupCount (categoryCounts (scrape_linkedin_jobs demoEnv.pages demoEnv.now))
      "Frontend Developer" = some 2 ∧
    lookupCount (categoryCounts (scrape_linkedin_jobs demoEnv.pages demoEnv.now))
      "Machine Learning Engineer" = some 2 ∧
    (lambda_handler (Except.ok demoEnv) "t0").statusCode = 200 ∧
    demoRecord1.category = "Backend Developer" := by
  have h := lambda_handler_spec demoEnv "boom" "t0"
  refine ⟨h.1, by decide, ?_, ?_, ?_, ?_, ?_⟩
  · rw [h.2.2.1 (scrape_linkedin_jobs demoEnv.pages demoEnv.now) "Backend Developer"]
    decide
  · rw [h.2.2.1 (scrape_linkedin_jobs demoEnv.pages demoEnv.now) "Frontend Developer"]
    decide
  · rw [h.2.2.1 (scrape_linkedin_jobs demoEnv.pages demoEnv.now) "Machine Learning Engineer"]
    decide
  · rw [h.2.1]
  · exact h.2.2.2 (demoEnv.pages "Backend Developer") max_pages_per_category
      "Backend Developer" demoEnv.now demoRecord1 (by decide)

end JobScraper
